import Mathlib

/-!
Verification development for the evaluate feature of the vscode-supercollider
extension: the region locator, the evaluation protocol result handling, and
the decoration (feedback) state machine with its shared generation counter.
All definitions are shallow embeddings of the TypeScript source; line numbers
in doc comments refer to the evaluate feature source file.
-/

namespace SCEval

/-- A position in a document: zero-based line and character, as in the editor
API. -/
structure Pos where
  line : Nat
  character : Nat
deriving DecidableEq, Repr

/-- A range (or selection): an ordered pair of positions. The field named
end in the source is called endPos here because end is a Lean keyword. -/
structure Range where
  start : Pos
  endPos : Pos
deriving DecidableEq, Repr

/-- Text of line i of a document, the document being modelled as the list of
its lines. Per the editor API, a line's text never contains line separator
characters. Out-of-range indices give the empty string. -/
def lineText (doc : List String) (i : Nat) : String := doc.getD i ""

/-- JavaScript regexp whitespace class (backslash-s): space, tab, line feed,
vertical tab, form feed, carriage return, NBSP, Ogham space mark, the Unicode
space separators, line/paragraph separator, narrow/medium math space,
ideographic space and BOM. -/
def jsSpace (c : Char) : Bool :=
  c = ' ' || c = '\t' || c = '\n' || c.val = 0x0B || c.val = 0x0C || c = '\r' ||
  c.val = 0xA0 || c.val = 0x1680 || (0x2000 ≤ c.val && c.val ≤ 0x200A) ||
  c.val = 0x2028 || c.val = 0x2029 || c.val = 0x202F || c.val = 0x205F ||
  c.val = 0x3000 || c.val = 0xFEFF

/-- Test of the opening-marker pattern startRE (source line 178), the
anchored regex: open-paren, whitespace-star, an optional line-comment marker,
whitespace-star, a capturing dot-star, whitespace-star, end. On a document
line (which contains no line separators) everything after the leading
open-paren is absorbed: the two whitespace-stars and the optional comment
group may match the empty string and the dot-star then matches the entire
separator-free remainder. Hence the test holds exactly when the first
character of the line is an opening parenthesis. -/
def testStartRE (s : String) : Bool :=
  match s.data with
  | '(' :: _ => true
  | _ => false

/-- Test of the closing-marker pattern endRE (source line 179), the anchored
regex: close-paren, whitespace-star, an optional semicolon, whitespace-star,
an optional trailing line comment (two slashes then dot-star), end. On a
document line (no line separators) the greedy whitespace-star cannot overlap
a semicolon or a slash, so matching is deterministic: after the close-paren,
drop whitespace, consume one optional semicolon, drop whitespace, and the
rest must be empty or start a line comment (whose tail the dot-star then
absorbs). -/
def testEndRE (s : String) : Bool :=
  match s.data with
  | ')' :: rest =>
    let r1 := rest.dropWhile jsSpace
    let r2 := match r1 with
      | ';' :: r => r.dropWhile jsSpace
      | _ => r1
    match r2 with
    | [] => true
    | '/' :: '/' :: _ => true
    | _ => false
  | _ => false

/-- Backward scan of currentDocumentRegion (source lines 183 to 194): from
line i walk upward until a line matches the opening-marker pattern; reaching
line 0 without a match yields none (the source sets startLine to null). -/
def scanOpen (doc : List String) : Nat → Option Nat
  | 0 => if testStartRE (lineText doc 0) then some 0 else none
  | i + 1 =>
    if testStartRE (lineText doc (i + 1)) then some (i + 1) else scanOpen doc i

/-- One iteration's counter update of the forward scan (source lines 200 to
208): the visited line is first tested against the opening-marker pattern
(increment on match), then, independently, against the closing-marker
pattern (decrement on match); the inner if is the counter after the first
test, the outer one the counter after the second. -/
def stepDepth (t : String) (depth : Int) : Int :=
  if testEndRE t then (if testStartRE t then depth + 1 else depth) - 1
  else (if testStartRE t then depth + 1 else depth)

/-- Forward scan of currentDocumentRegion (source lines 198 to 224): from
line i with nesting counter depth, update the counter by both tests on the
visited line; when the counter reaches 0 the visited line is the closing
boundary; reaching the document's last line without the counter reaching 0
yields none (endLine set to null). The fuel argument only bounds the
recursion; any fuel at least lineCount makes this equal to the source's
unbounded loop, which advances one line per iteration and runs at most
lineCount iterations. -/
def scanClose (doc : List String) (fuel : Nat) (i : Nat) (depth : Int) : Option Nat :=
  if stepDepth (lineText doc i) depth = 0 then some i
  else if i = doc.length - 1 then none
  else
    match fuel with
    | 0 => none
    | f + 1 => scanClose doc f (i + 1) (stepDepth (lineText doc i) depth)

/-- Region computation of currentDocumentRegion (source lines 174 to 236),
after the active-editor access: backward scan for the opening line from the
selection's start line, then forward scan with nesting counter 1 from the
selection's end line; on success the span runs from the start of the opening
line to the end of the closing line, otherwise none. -/
def regionRange (doc : List String) (sel : Range) : Option Range :=
  match scanOpen doc sel.start.line with
  | none => none
  | some s =>
    match scanClose doc doc.length sel.endPos.line 1 with
    | none => none
    | some e => some ⟨⟨s, 0⟩, ⟨e, (lineText doc e).length⟩⟩

/-- The slice of editor state the locator functions read: the active
editor's document (as its list of lines) and its selection. -/
structure JsTextEditor where
  document : List String
  selection : Range
deriving DecidableEq, Repr

/-- A thrown JavaScript error. Reading a property of undefined (such as
activeTextEditor.document when no editor is active) throws a TypeError. -/
inductive JsError
  | typeError
deriving DecidableEq, Repr

/-- Source function currentDocumentSelection (lines 143 to 150): guarded,
returns null when there is no active editor, else the selection. -/
def currentDocumentSelection (active : Option JsTextEditor) : Option Range :=
  match active with
  | none => none
  | some ed => some ed.selection

/-- Whole-line span used by line mode: from character 0 of the selection's
start line to the end of the selection's end line. -/
def lineModeRange (doc : List String) (sel : Range) : Range :=
  ⟨⟨sel.start.line, 0⟩, ⟨sel.endPos.line, (lineText doc sel.endPos.line).length⟩⟩

/-- Source function currentDocumentLine (lines 152 to 164): guarded, returns
null when there is no active editor, else the whole-line span. -/
def currentDocumentLine (active : Option JsTextEditor) : Option Range :=
  match active with
  | none => none
  | some ed => some (lineModeRange ed.document ed.selection)

/-- Source function currentDocumentRegion (lines 166 to 237). The source
reads activeTextEditor.document on line 169, BEFORE its null guard on line
171; with no active editor that property access throws a TypeError and the
guard is dead code, so the no-editor case is an error, not a null return. -/
def currentDocumentRegion (active : Option JsTextEditor) : Except JsError (Option Range) :=
  match active with
  | none => Except.error JsError.typeError
  | some ed => Except.ok (regionRange ed.document ed.selection)

/-- Emptiness test of a range (range.isEmpty): start equals end. -/
def rangeIsEmpty (r : Range) : Bool := r.start = r.endPos

/-- Handler of the supercollider.evaluateSelection command (source lines 252
to 277). It reads vscode.window.activeTextEditor.document unguarded (line
256), so with no active editor it throws; otherwise it resolves the range
(explicit argument if given, else the current selection, falling back to
line mode when that is null or empty); ok (some r) means the provider's
evaluateString is invoked with r, ok none means no-op. -/
def evaluateSelectionCommand (active : Option JsTextEditor) (inputRange : Option Range) :
    Except JsError (Option Range) :=
  match active with
  | none => Except.error JsError.typeError
  | some _ =>
    let range0 : Option Range :=
      match inputRange with
      | some r => some r
      | none => currentDocumentSelection active
    let range1 : Option Range :=
      match range0 with
      | some r => if rangeIsEmpty r then currentDocumentLine active else some r
      | none => currentDocumentLine active
    Except.ok range1

/-- Handler of the supercollider.evaluateLine command (source lines 279 to
287): unguarded activeTextEditor.document read (line 281), then line mode. -/
def evaluateLineCommand (active : Option JsTextEditor) : Except JsError (Option Range) :=
  match active with
  | none => Except.error JsError.typeError
  | some _ => Except.ok (currentDocumentLine active)

/-- Handler of the supercollider.evaluateRegion command (source lines 289 to
297): unguarded activeTextEditor.document read (line 291), then region
mode. -/
def evaluateRegionCommand (active : Option JsTextEditor) : Except JsError (Option Range) :=
  match active with
  | none => Except.error JsError.typeError
  | some _ => currentDocumentRegion active

/-- Net nesting-counter change contributed by one scanned line: plus one on
an opening-marker match, minus one on a closing-marker match, the two tests
independent. -/
def lineDelta (t : String) : Int :=
  (if testStartRE t then (1 : Int) else 0) - (if testEndRE t then 1 else 0)

/-- Sum of lineDelta over lines i, i+1, ..., i+k. -/
def sumDelta (doc : List String) (i : Nat) : Nat → Int
  | 0 => lineDelta (lineText doc i)
  | k + 1 => sumDelta doc i k + lineDelta (lineText doc (i + (k + 1)))

/-- Nesting counter after the forward scan has processed lines i through
i+k, having started at depth d. -/
def depthAfter (doc : List String) (i : Nat) (d : Int) (k : Nat) : Int :=
  d + sumDelta doc i k

/-- Number of opening-marker matches among lines i through i+k. -/
def countOpen (doc : List String) (i : Nat) : Nat → Nat
  | 0 => if testStartRE (lineText doc i) then 1 else 0
  | k + 1 => countOpen doc i k + (if testStartRE (lineText doc (i + (k + 1))) then 1 else 0)

/-- Number of closing-marker matches among lines i through i+k. -/
def countClose (doc : List String) (i : Nat) : Nat → Nat
  | 0 => if testEndRE (lineText doc i) then 1 else 0
  | k + 1 => countClose doc i k + (if testEndRE (lineText doc (i + (k + 1))) then 1 else 0)

/-- Protocol result type EvaluateSelectionResult (source lines 327 to 331):
three optional string fields, each string-or-undefined in the source. Field
order follows the source declaration. -/
structure EvaluateSelectionResult where
  compileError : Option String
  result : Option String
  error : Option String
deriving DecidableEq, Repr

/-- Response classification performed by the then-handler of evaluateString
(source lines 361 to 380): an if / else-if chain testing the result field
first, then compileError, then error; the taken branch calls the completion
callback with the field's text and an isError flag (false for result, true
for the other two); when no field is defined no branch runs and the callback
is never called. -/
def classifyResult (r : EvaluateSelectionResult) : Option (String × Bool) :=
  match r.result with
  | some s => some (s, false)
  | none =>
    match r.compileError with
    | some s => some (s, true)
    | none =>
      match r.error with
      | some s => some (s, true)
      | none => none

/-- Number of defined fields of a result. -/
def definedCount (r : EvaluateSelectionResult) : Nat :=
  (if r.result.isSome then 1 else 0) + (if r.compileError.isSome then 1 else 0) +
    (if r.error.isSome then 1 else 0)

/-- The three process-wide decoration styles (source lines 28 to 44). -/
inductive DecoKind
  | evaluating
  | success
  | error
deriving DecidableEq, Repr

/-- One setDecorations call: it wholly replaces the decoration list of the
given style on the given editor. A decoration is a range together with its
hover text. -/
structure DecoOp where
  ed : Nat
  kind : DecoKind
  decos : List (Range × String)
deriving DecidableEq, Repr

/-- Decoration instances currently applied to one editor, per style. -/
structure DecoState where
  evalD : List (Range × String)
  succD : List (Range × String)
  errD : List (Range × String)
deriving DecidableEq, Repr

/-- Module state of the feature: the single shared evaluateUID counter
(source line 46) and each editor's applied decorations, editors being keyed
by an identifier. -/
structure SysState where
  evaluateUID : Nat
  editors : Nat → DecoState

/-- Generation token, target editor and target range captured by one
invocation of onStartEvaluate. -/
structure Invocation where
  ed : Nat
  gen : Nat
  range : Range
deriving DecidableEq, Repr

/-- A timer armed by setTimeout in onStartEvaluate: its delay in
milliseconds and the invocation whose generation its callback checks. -/
structure TimerRec where
  delayMs : Nat
  inv : Invocation
deriving DecidableEq, Repr

/-- Source constant decoratorTimeout (line 49). -/
def decoratorTimeout : Nat := 5000

/-- Initial module state: counter 0, no decorations anywhere. -/
def initState : SysState := ⟨0, fun _ => ⟨[], [], []⟩⟩

/-- Replace the decoration list of one style in a per-editor state. -/
def setKind (ds : DecoState) (k : DecoKind) (l : List (Range × String)) : DecoState :=
  match k with
  | DecoKind.evaluating => ⟨l, ds.succD, ds.errD⟩
  | DecoKind.success => ⟨ds.evalD, l, ds.errD⟩
  | DecoKind.error => ⟨ds.evalD, ds.succD, l⟩

/-- Apply one setDecorations call to the module state. -/
def applyOp (st : SysState) (op : DecoOp) : SysState :=
  ⟨st.evaluateUID,
   fun e => if e = op.ed then setKind (st.editors e) op.kind op.decos else st.editors e⟩

/-- Source function onStartEvaluate (lines 94 to 141): pre-increment the
shared counter and capture the new value synchronously (line 96, before any
suspension point), clear the success and error decorations of the target
editor, paint the evaluating decoration with its fixed hover text over the
range, and arm the decoratorTimeout timer. Returns the new state, the
captured invocation (whose generation the returned completion callback
checks), and the armed timer. -/
def onStartEvaluate (st : SysState) (ed : Nat) (r : Range) :
    SysState × Invocation × TimerRec :=
  let gen := st.evaluateUID + 1
  let inv : Invocation := ⟨ed, gen, r⟩
  let st0 : SysState := ⟨gen, st.editors⟩
  let st1 := applyOp st0 ⟨ed, DecoKind.success, []⟩
  let st2 := applyOp st1 ⟨ed, DecoKind.error, []⟩
  let st3 := applyOp st2 ⟨ed, DecoKind.evaluating, [(r, "Evaluated the thing")]⟩
  (st3, inv, ⟨decoratorTimeout, inv⟩)

/-- Timeout callback armed at source lines 107 to 113: when it fires, if the
shared counter still equals the captured generation, clear the evaluating
decoration of the invocation's editor; otherwise do nothing. It never
touches the success or error decorations. -/
def timerFire (st : SysState) (inv : Invocation) : SysState :=
  if st.evaluateUID = inv.gen then applyOp st ⟨inv.ed, DecoKind.evaluating, []⟩ else st

/-- The setDecorations sequence of onEndEvaluate (source lines 52 to 92) for
a completion carrying text and isError on editor ed over range r: clear
evaluating; on error clear success, paint the error decoration with the text
as hover, and clear it after the post flash delay; symmetrically with the
success decoration otherwise. -/
def onEndEvaluateOps (ed : Nat) (r : Range) (text : String) (isError : Bool) :
    List DecoOp :=
  if isError then
    [⟨ed, DecoKind.evaluating, []⟩, ⟨ed, DecoKind.success, []⟩,
     ⟨ed, DecoKind.error, [(r, text)]⟩, ⟨ed, DecoKind.error, []⟩]
  else
    [⟨ed, DecoKind.evaluating, []⟩, ⟨ed, DecoKind.error, []⟩,
     ⟨ed, DecoKind.success, [(r, text)]⟩, ⟨ed, DecoKind.success, []⟩]

/-- The setDecorations calls emitted when the response for an invocation
arrives in a given state: the classified branch (if any) calls the
completion callback, and the callback body (source line 130) runs
onEndEvaluate only when the shared counter still equals the invocation's
captured generation; otherwise, and for a classification-free result,
nothing is emitted. -/
def handleResponseOps (st : SysState) (inv : Invocation) (r : EvaluateSelectionResult) :
    List DecoOp :=
  match classifyResult r with
  | none => []
  | some (text, isError) =>
    if st.evaluateUID = inv.gen then onEndEvaluateOps inv.ed inv.range text isError
    else []

/-- Module state after the response for an invocation is handled. -/
def handleResponse (st : SysState) (inv : Invocation) (r : EvaluateSelectionResult) :
    SysState :=
  (handleResponseOps st inv r).foldl applyOp st

/-- Asynchronous events of the subsystem: starting an invocation, a response
arriving for an invocation, an invocation's timeout timer firing. -/
inductive Event
  | invoke (ed : Nat) (r : Range)
  | response (inv : Invocation) (r : EvaluateSelectionResult)
  | timeout (inv : Invocation)

/-- One event step; the second component lists the invocations the step
created. -/
def stepEvent (st : SysState) : Event → SysState × List Invocation
  | Event.invoke ed r => ((onStartEvaluate st ed r).1, [(onStartEvaluate st ed r).2.1])
  | Event.response inv r => (handleResponse st inv r, [])
  | Event.timeout inv => (timerFire st inv, [])

/-- Run a sequence of events from a state, collecting the created
invocations in order. -/
def runEvents (st : SysState) : List Event → SysState × List Invocation
  | [] => (st, [])
  | ev :: rest =>
    let p := stepEvent st ev
    let q := runEvents p.1 rest
    (q.1, p.2 ++ q.2)

/-- Number of invocation events in a list of events. -/
def countInvoke (evs : List Event) : Nat :=
  evs.countP fun ev => match ev with
    | Event.invoke _ _ => true
    | _ => false

/-- Concrete range used by the closed instances below. -/
def demoRange : Range := ⟨⟨0, 0⟩, ⟨0, 1⟩⟩

/-- A setDecorations call never changes the shared counter. -/
theorem applyOp_evaluateUID (st : SysState) (op : DecoOp) :
    (applyOp st op).evaluateUID = st.evaluateUID := rfl

/-- Folding setDecorations calls never changes the shared counter. -/
theorem foldl_applyOp_evaluateUID (ops : List DecoOp) :
    ∀ st : SysState, (ops.foldl applyOp st).evaluateUID = st.evaluateUID := by
  induction ops with
  | nil => intro st; rfl
  | cons op rest ih => intro st; rw [List.foldl_cons, ih]; rfl

/-- Handling a response never changes the shared counter. -/
theorem handleResponse_evaluateUID (st : SysState) (inv : Invocation)
    (r : EvaluateSelectionResult) :
    (handleResponse st inv r).evaluateUID = st.evaluateUID :=
  foldl_applyOp_evaluateUID _ st

/-- A firing timeout never changes the shared counter. -/
theorem timerFire_evaluateUID (st : SysState) (inv : Invocation) :
    (timerFire st inv).evaluateUID = st.evaluateUID := by
  unfold timerFire; split <;> rfl

/-- Starting an invocation increments the shared counter by one. -/
theorem onStartEvaluate_evaluateUID (st : SysState) (ed : Nat) (r : Range) :
    (onStartEvaluate st ed r).1.evaluateUID = st.evaluateUID + 1 := rfl

/-- The invocation captured at start: the target editor, the pre-incremented
counter value, and the target range. -/
theorem onStartEvaluate_inv (st : SysState) (ed : Nat) (r : Range) :
    (onStartEvaluate st ed r).2.1 = ⟨ed, st.evaluateUID + 1, r⟩ := rfl

/-- A completion whose captured generation no longer equals the shared
counter emits no setDecorations call at all. -/
theorem handleResponseOps_stale (st : SysState) (inv : Invocation)
    (r : EvaluateSelectionResult) (h : st.evaluateUID ≠ inv.gen) :
    handleResponseOps st inv r = [] := by
  unfold handleResponseOps
  cases classifyResult r with
  | none => rfl
  | some p => obtain ⟨t, b⟩ := p; simp [h]

/-- A completion whose captured generation still equals the shared counter
emits the full onEndEvaluate sequence of its classified branch. -/
theorem handleResponseOps_fresh (st : SysState) (inv : Invocation)
    (r : EvaluateSelectionResult) (t : String) (b : Bool)
    (hc : classifyResult r = some (t, b)) (h : st.evaluateUID = inv.gen) :
    handleResponseOps st inv r = onEndEvaluateOps inv.ed inv.range t b := by
  unfold handleResponseOps
  rw [hc]
  simp [h]

/-- A setDecorations call leaves every other editor's decorations alone. -/
theorem applyOp_editors_ne (st : SysState) (op : DecoOp) (e : Nat) (h : e ≠ op.ed) :
    (applyOp st op).editors e = st.editors e := by
  simp [applyOp, h]

/-- Folding setDecorations calls that all target editor d leaves every other
editor's decorations alone. -/
theorem foldl_applyOp_editors_ne (ops : List DecoOp) (d : Nat) :
    ∀ (st : SysState) (e : Nat), (∀ op ∈ ops, op.ed = d) → e ≠ d →
      ((ops.foldl applyOp st).editors e) = st.editors e := by
  induction ops with
  | nil => intro st e _ _; rfl
  | cons op rest ih =>
    intro st e hall hne
    have h1 : op.ed = d := hall op (List.mem_cons_self op rest)
    rw [List.foldl_cons, ih (applyOp st op) e (fun o ho => hall o (List.mem_cons_of_mem _ ho)) hne]
    exact applyOp_editors_ne st op e (fun h => hne (h.trans h1))

/-- Every call of the onEndEvaluate sequence targets the completion's
editor. -/
theorem onEndEvaluateOps_ed (ed : Nat) (r : Range) (t : String) (b : Bool) :
    ∀ op ∈ onEndEvaluateOps ed r t b, op.ed = ed := by
  intro op hop
  cases b <;> simp [onEndEvaluateOps] at hop <;>
    rcases hop with rfl | rfl | rfl | rfl <;> rfl

/-- Handling a response leaves every editor other than the invocation's
target alone. -/
theorem handleResponse_editors_ne (st : SysState) (inv : Invocation)
    (r : EvaluateSelectionResult) (e : Nat) (h : e ≠ inv.ed) :
    (handleResponse st inv r).editors e = st.editors e := by
  unfold handleResponse handleResponseOps
  cases hc : classifyResult r with
  | none => rfl
  | some p =>
    obtain ⟨t, b⟩ := p
    by_cases hg : st.evaluateUID = inv.gen
    · simp only [hg, if_pos]
      exact foldl_applyOp_editors_ne _ inv.ed st e (onEndEvaluateOps_ed _ _ _ _) h
    · simp [hg]

/-- C2, counterexample. The claim says that a result with more than one
defined field never invokes the completion callback, so no completion
transition is rendered. On the code the if / else-if chain gives the result
field priority: for the two-field result with compileError defined as b and
result defined as a, the handler does invoke the callback with the result
text and isError false, and for a fresh invocation this renders the full
success transition (a nonempty setDecorations sequence), refuting the
claim. -/
theorem C2_counterexample :
    definedCount ⟨some "b", some "a", none⟩ = 2 ∧
    classifyResult ⟨some "b", some "a", none⟩ = some ("a", false) ∧
    handleResponseOps ((onStartEvaluate initState 0 demoRange).1)
      ((onStartEvaluate initState 0 demoRange).2.1) ⟨some "b", some "a", none⟩ =
      onEndEvaluateOps 0 demoRange "a" false ∧
    onEndEvaluateOps 0 demoRange "a" false ≠ [] := by
  exact ⟨by decide, by decide, by decide, by decide⟩

/-- C2, amended. A result with zero defined fields never invokes the
completion callback, so no completion transition is rendered (the handler
emits no setDecorations call); when at least one field is defined the
callback IS invoked, the chain choosing the defined field of highest
priority: result (isError false), then compileError, then error (both
isError true). -/
theorem C2_zero_fields_noop : ∀ r : EvaluateSelectionResult,
    (classifyResult r = none ↔ definedCount r = 0) ∧
    (∀ (st : SysState) (inv : Invocation),
      classifyResult r = none → handleResponseOps st inv r = []) ∧
    (∀ s, r.result = some s → classifyResult r = some (s, false)) ∧
    (∀ s, r.result = none → r.compileError = some s → classifyResult r = some (s, true)) ∧
    (∀ s, r.result = none → r.compileError = none → r.error = some s →
      classifyResult r = some (s, true)) := by
  rintro ⟨ce, res, err⟩
  refine ⟨?_, ?_, ?_, ?_, ?_⟩ <;>
    cases res <;> cases ce <;> cases err <;>
      simp [classifyResult, definedCount, handleResponseOps]

/-- C2, witness for the amended claim at a concrete zero-field result. -/
theorem C2_zero_fields_noop_witness :
    handleResponseOps initState ⟨0, 0, demoRange⟩ ⟨none, none, none⟩ = [] :=
  (C2_zero_fields_noop ⟨none, none, none⟩).2.1 initState ⟨0, 0, demoRange⟩ rfl

/-- C3, counterexample. The claim says editors have independent generation
counters, so invocations on different editors never suppress each other's
completion rendering or timeout clearing. On the code the counter is one
process-wide variable: after invocation A on editor 1 (generation 1) and
invocation B on editor 2 (generation 2), A's well-formed completion emits no
setDecorations call (rendering suppressed by the different-editor
invocation), and A's timeout fails to clear editor 1's still-painted
evaluating decoration. -/
theorem C3_counterexample :
    handleResponseOps
        ((onStartEvaluate ((onStartEvaluate initState 1 demoRange).1) 2 demoRange).1)
        ((onStartEvaluate initState 1 demoRange).2.1) ⟨none, some "2", none⟩ = [] ∧
    ((timerFire ((onStartEvaluate ((onStartEvaluate initState 1 demoRange).1) 2 demoRange).1)
        ((onStartEvaluate initState 1 demoRange).2.1)).editors 1).evalD =
      [(demoRange, "Evaluated the thing")] := by
  exact ⟨by decide, by decide⟩

/-- C3, amended. Each editor has its own independent annotation state:
starting an invocation, handling a response and a firing timeout each leave
every editor other than their target untouched. The generation counter,
however, is a single process-wide value, so an invocation on ANY editor
(the same or a different one) started after an older invocation suppresses
the older invocation's completion rendering: the older completion emits no
setDecorations call. -/
theorem C3_per_editor_state_shared_counter :
    (∀ (st : SysState) (ed : Nat) (r : Range) (e : Nat), e ≠ ed →
      ((onStartEvaluate st ed r).1.editors e) = st.editors e) ∧
    (∀ (st : SysState) (inv : Invocation) (res : EvaluateSelectionResult) (e : Nat),
      e ≠ inv.ed → ((handleResponse st inv res).editors e) = st.editors e) ∧
    (∀ (st : SysState) (inv : Invocation) (e : Nat), e ≠ inv.ed →
      ((timerFire st inv).editors e) = st.editors e) ∧
    (∀ (st : SysState) (ed1 : Nat) (r1 : Range) (ed2 : Nat) (r2 : Range)
        (res : EvaluateSelectionResult),
      handleResponseOps ((onStartEvaluate ((onStartEvaluate st ed1 r1).1) ed2 r2).1)
        ((onStartEvaluate st ed1 r1).2.1) res = []) := by
  refine ⟨?_, ?_, ?_, ?_⟩
  · intro st ed r e he
    simp [onStartEvaluate, applyOp, he]
  · intro st inv res e he
    exact handleResponse_editors_ne st inv res e he
  · intro st inv e he
    unfold timerFire
    split
    · exact applyOp_editors_ne st _ e he
    · rfl
  · intro st ed1 r1 ed2 r2 res
    apply handleResponseOps_stale
    rw [onStartEvaluate_evaluateUID, onStartEvaluate_evaluateUID, onStartEvaluate_inv]
    simp

/-- C3, witness for the amended claim at concrete editors 2 and 5. -/
theorem C3_per_editor_state_shared_counter_witness :
    ((onStartEvaluate initState 2 demoRange).1.editors 5) = initState.editors 5 :=
  C3_per_editor_state_shared_counter.1 initState 2 demoRange 5 (by decide)

/-- C6: refuted by the code (code bug). The claim says the locator functions
and command handlers never raise, every failure path including absent editor
focus returning no-span or null. currentDocumentSelection and
currentDocumentLine do guard and return null, but currentDocumentRegion
reads activeTextEditor.document BEFORE its own null guard (making that guard
dead code), and all three command handlers read
vscode.window.activeTextEditor.document unguarded: with no active editor
each of these throws a TypeError to the command layer. -/
theorem C6_no_editor_raises :
    currentDocumentRegion none = Except.error JsError.typeError ∧
    evaluateRegionCommand none = Except.error JsError.typeError ∧
    evaluateLineCommand none = Except.error JsError.typeError ∧
    evaluateSelectionCommand none none = Except.error JsError.typeError ∧
    currentDocumentSelection none = none ∧
    currentDocumentLine none = none :=
  ⟨rfl, rfl, rfl, rfl, rfl, rfl⟩

/-- C7: for every well-formed response (exactly one defined field, i.e. one
of the three one-field shapes), the dispatcher invokes the completion
callback with the field's text, isError false for result and true for
compileError and for error; the compile-error and runtime-error cases emit
the identical setDecorations sequence (the same error path), and for two
error completions the sequence differs only in the hover text: the targeted
editors and styles coincide call for call. -/
theorem C7_wellformed_dispatch :
    (∀ s, classifyResult ⟨none, some s, none⟩ = some (s, false)) ∧
    (∀ s, classifyResult ⟨some s, none, none⟩ = some (s, true)) ∧
    (∀ s, classifyResult ⟨none, none, some s⟩ = some (s, true)) ∧
    (∀ (st : SysState) (inv : Invocation) (s : String),
      handleResponseOps st inv ⟨some s, none, none⟩ =
        handleResponseOps st inv ⟨none, none, some s⟩) ∧
    (∀ (ed : Nat) (r : Range) (s t : String),
      (onEndEvaluateOps ed r s true).map (fun op => (op.ed, op.kind)) =
        (onEndEvaluateOps ed r t true).map (fun op => (op.ed, op.kind))) := by
  refine ⟨fun s => rfl, fun s => rfl, fun s => rfl, ?_, fun ed r s t => rfl⟩
  intro st inv s
  rfl

/-- C8: every invocation arms its timer with the fixed delay
decoratorTimeout, equal to exactly 5000 ms; when the timer fires, the
evaluating decoration of the invocation's editor becomes empty exactly when
the invocation's generation still equals the shared counter (and every other
editor's decorations are untouched, the condition being false for them), and
in no case does the firing timer change any success or error decoration or
the counter itself: a timeout is visually silent. -/
theorem C8_fixed_timeout_silent :
    (∀ (st : SysState) (ed : Nat) (r : Range),
      ((onStartEvaluate st ed r).2.2).delayMs = 5000) ∧
    decoratorTimeout = 5000 ∧
    (∀ (st : SysState) (inv : Invocation) (e : Nat),
      ((timerFire st inv).editors e).evalD =
        (if st.evaluateUID = inv.gen ∧ e = inv.ed then [] else (st.editors e).evalD) ∧
      ((timerFire st inv).editors e).succD = (st.editors e).succD ∧
      ((timerFire st inv).editors e).errD = (st.editors e).errD) ∧
    (∀ (st : SysState) (inv : Invocation),
      (timerFire st inv).evaluateUID = st.evaluateUID) := by
  refine ⟨fun _ _ _ => rfl, rfl, ?_, timerFire_evaluateUID⟩
  intro st inv e
  unfold timerFire applyOp setKind
  by_cases h1 : st.evaluateUID = inv.gen <;> by_cases h2 : e = inv.ed <;>
    simp [h1, h2]

/-- C9: the forward scan's nesting tests are applied to the selection's end
line itself. In the three-line document with lines open-paren, x-semicolon,
close-paren, with the selection on line 0 (the opening line), the counter
after the scan's first visited line (line 0 itself, matching the opening
pattern) is 2; the forward scan then runs out of document, and region mode
returns no-span instead of the span of lines 0 to 2. -/
theorem C9_end_line_scanned :
    depthAfter ["(", "x;", ")"] 0 1 0 = 2 ∧
    scanClose ["(", "x;", ")"] 3 0 1 = none ∧
    regionRange ["(", "x;", ")"] ⟨⟨0, 0⟩, ⟨0, 0⟩⟩ = none := by
  exact ⟨by decide, by decide, by decide⟩

/-- One scan step changes the counter by exactly the line's net delta. -/
theorem stepDepth_eq (t : String) (d : Int) : stepDepth t d = d + lineDelta t := by
  unfold stepDepth lineDelta; split_ifs <;> ring

/-- A line's net delta is at least minus one. -/
theorem neg_one_le_lineDelta (t : String) : -1 ≤ lineDelta t := by
  unfold lineDelta; split_ifs <;> norm_num

/-- Counter after the first visited line. -/
theorem depthAfter_zero (doc : List String) (i : Nat) (d : Int) :
    depthAfter doc i d 0 = d + lineDelta (lineText doc i) := rfl

/-- Splitting the delta sum at its first line. -/
theorem sumDelta_head (doc : List String) (i : Nat) : ∀ k : Nat,
    sumDelta doc i (k + 1) = lineDelta (lineText doc i) + sumDelta doc (i + 1) k := by
  intro k
  induction k with
  | zero => simp [sumDelta]
  | succ k ih =>
    show sumDelta doc i (k + 1) + lineDelta (lineText doc (i + (k + 1 + 1))) = _
    rw [ih]
    have he : i + (k + 1 + 1) = (i + 1) + (k + 1) := by omega
    rw [he]
    show _ = lineDelta (lineText doc i) +
      (sumDelta doc (i + 1) k + lineDelta (lineText doc ((i + 1) + (k + 1))))
    ring

/-- The counter after lines i through i+k+1 equals the counter of the scan
restarted one line later from the once-stepped depth. -/
theorem depthAfter_shift (doc : List String) (i : Nat) (d : Int) (k : Nat) :
    depthAfter doc i d (k + 1) =
      depthAfter doc (i + 1) (d + lineDelta (lineText doc i)) k := by
  unfold depthAfter
  rw [sumDelta_head]
  ring

/-- Full characterisation of the forward scan: with positive starting depth,
enough fuel and an in-range starting line, the scan returns line j exactly
when j is the FIRST line at which the running counter reaches 0, and the
scan stays inside the document. -/
theorem scanClose_some_iff (doc : List String) : ∀ (fuel i : Nat) (d : Int),
    0 < d → i < doc.length → doc.length ≤ fuel + i + 1 →
    ∀ j, (scanClose doc fuel i d = some j ↔
      ∃ k, j = i + k ∧ i + k < doc.length ∧ depthAfter doc i d k = 0 ∧
        ∀ m, m < k → depthAfter doc i d m ≠ 0) := by
  intro fuel
  induction fuel with
  | zero =>
    intro i d hd hi hfuel j
    rw [scanClose.eq_def, stepDepth_eq]
    by_cases hz : d + lineDelta (lineText doc i) = 0
    · rw [if_pos hz]
      constructor
      · intro h
        obtain rfl : j = i := (Option.some_inj.mp h).symm
        exact ⟨0, by omega, by omega, by rw [depthAfter_zero]; exact hz,
          fun m hm => absurd hm (by omega)⟩
      · rintro ⟨k, rfl, hlt, hdep, hmin⟩
        have hk : k = 0 := by
          by_contra hk0
          exact hmin 0 (Nat.pos_of_ne_zero hk0) (by rw [depthAfter_zero]; exact hz)
        subst hk
        rfl
    · rw [if_neg hz]
      have hil : i = doc.length - 1 := by omega
      rw [if_pos hil]
      show (none : Option Nat) = some j ↔ _
      constructor
      · intro h; exact absurd h (by simp)
      · rintro ⟨k, rfl, hlt, hdep, hmin⟩
        exfalso
        have hk : k = 0 := by omega
        subst hk
        exact hz (by rw [← depthAfter_zero doc i d]; exact hdep)
  | succ f ih =>
    intro i d hd hi hfuel j
    rw [scanClose.eq_def, stepDepth_eq]
    by_cases hz : d + lineDelta (lineText doc i) = 0
    · rw [if_pos hz]
      constructor
      · intro h
        obtain rfl : j = i := (Option.some_inj.mp h).symm
        exact ⟨0, by omega, by omega, by rw [depthAfter_zero]; exact hz,
          fun m hm => absurd hm (by omega)⟩
      · rintro ⟨k, rfl, hlt, hdep, hmin⟩
        have hk : k = 0 := by
          by_contra hk0
          exact hmin 0 (Nat.pos_of_ne_zero hk0) (by rw [depthAfter_zero]; exact hz)
        subst hk
        rfl
    · rw [if_neg hz]
      by_cases hil : i = doc.length - 1
      · rw [if_pos hil]
        show (none : Option Nat) = some j ↔ _
        constructor
        · intro h; exact absurd h (by simp)
        · rintro ⟨k, rfl, hlt, hdep, hmin⟩
          exfalso
          have hk : k = 0 := by omega
          subst hk
          exact hz (by rw [← depthAfter_zero doc i d]; exact hdep)
      · rw [if_neg hil]
        have hd2 : 0 < d + lineDelta (lineText doc i) := by
          have h1 := neg_one_le_lineDelta (lineText doc i)
          omega
        have hi1 : i + 1 < doc.length := by omega
        have hf1 : doc.length ≤ f + (i + 1) + 1 := by omega
        have hmain := ih (i + 1) (d + lineDelta (lineText doc i)) hd2 hi1 hf1 j
        show scanClose doc f (i + 1) (d + lineDelta (lineText doc i)) = some j ↔ _
        rw [hmain]
        constructor
        · rintro ⟨k, rfl, hlt, hdep, hmin⟩
          refine ⟨k + 1, by omega, by omega, ?_, ?_⟩
          · rw [depthAfter_shift]; exact hdep
          · intro m hm
            cases m with
            | zero => rw [depthAfter_zero]; exact hz
            | succ m2 => rw [depthAfter_shift]; exact hmin m2 (by omega)
        · rintro ⟨k, hjk, hlt, hdep, hmin⟩
          cases k with
          | zero =>
            exfalso
            exact hz (by rw [← depthAfter_zero doc i d]; exact hdep)
          | succ k2 =>
            refine ⟨k2, by omega, by omega, ?_, ?_⟩
            · rw [← depthAfter_shift]; exact hdep
            · intro m hm
              have hx := hmin (m + 1) (by omega)
              rw [depthAfter_shift] at hx
              exact hx

/-- Lines beyond the document are empty. -/
theorem lineText_of_ge (doc : List String) (i : Nat) (h : doc.length ≤ i) :
    lineText doc i = "" := List.getD_eq_default _ _ h

/-- The line found by the backward scan matches the opening pattern. -/
theorem scanOpen_some_matches (doc : List String) : ∀ i s, scanOpen doc i = some s →
    testStartRE (lineText doc s) = true := by
  intro i
  induction i with
  | zero =>
    intro s h
    unfold scanOpen at h
    split at h
    · obtain rfl : s = 0 := (Option.some_inj.mp h.symm)
      assumption
    · exact absurd h (by simp)
  | succ i ih =>
    intro s h
    unfold scanOpen at h
    split at h
    · obtain rfl : s = i + 1 := (Option.some_inj.mp h.symm)
      assumption
    · exact ih s h

/-- The line found by the forward scan matches the closing pattern: starting
from a positive counter, the counter can only reach 0 on a line that
decrements it. -/
theorem scanClose_some_matches (doc : List String) : ∀ (fuel i : Nat) (d : Int) (j : Nat),
    0 < d → scanClose doc fuel i d = some j → testEndRE (lineText doc j) = true := by
  intro fuel
  induction fuel with
  | zero =>
    intro i d j hd h
    rw [scanClose.eq_def, stepDepth_eq] at h
    by_cases hz : d + lineDelta (lineText doc i) = 0
    · rw [if_pos hz] at h
      obtain rfl : j = i := (Option.some_inj.mp h).symm
      by_contra hE
      have hlo : (0:Int) ≤ lineDelta (lineText doc j) := by
        unfold lineDelta
        rw [if_neg (fun hh => hE hh)]
        split_ifs <;> norm_num
      omega
    · rw [if_neg hz] at h
      split at h
      · exact absurd h (by simp)
      · exact absurd h (by simp)
  | succ f ih =>
    intro i d j hd h
    rw [scanClose.eq_def, stepDepth_eq] at h
    by_cases hz : d + lineDelta (lineText doc i) = 0
    · rw [if_pos hz] at h
      obtain rfl : j = i := (Option.some_inj.mp h).symm
      by_contra hE
      have hlo : (0:Int) ≤ lineDelta (lineText doc j) := by
        unfold lineDelta
        rw [if_neg (fun hh => hE hh)]
        split_ifs <;> norm_num
      omega
    · rw [if_neg hz] at h
      split at h
      · exact absurd h (by simp)
      · have hd2 : 0 < d + lineDelta (lineText doc i) := by
          have h1 := neg_one_le_lineDelta (lineText doc i)
          omega
        exact ih (i + 1) (d + lineDelta (lineText doc i)) j hd2 h

/-- With no opening-marker line at or below index i, the backward scan
fails. -/
theorem scanOpen_none_of (doc : List String) : ∀ i,
    (∀ l, l ≤ i → testStartRE (lineText doc l) = false) → scanOpen doc i = none := by
  intro i
  induction i with
  | zero =>
    intro hall
    unfold scanOpen
    rw [if_neg]
    simp [hall 0 (le_refl 0)]
  | succ i ih =>
    intro hall
    unfold scanOpen
    rw [if_neg]
    · exact ih (fun l hl => hall l (by omega))
    · simp [hall (i + 1) (le_refl (i + 1))]

/-- A line that does not match the closing pattern contributes a nonnegative
counter change. -/
theorem lineDelta_nonneg_of_not_close (t : String) (h : testEndRE t = false) :
    (0:Int) ≤ lineDelta t := by
  unfold lineDelta
  rw [h, if_neg (by simp : ¬(false = true))]
  split_ifs <;> norm_num

/-- With no closing-marker line at or above index i, the forward scan's
counter never decreases, so starting positive it never reaches 0 and the
scan fails. -/
theorem scanClose_none_of (doc : List String) : ∀ (fuel i : Nat) (d : Int),
    0 < d → (∀ l, i ≤ l → testEndRE (lineText doc l) = false) →
    scanClose doc fuel i d = none := by
  intro fuel
  induction fuel with
  | zero =>
    intro i d hd hall
    rw [scanClose.eq_def, stepDepth_eq]
    have hlo : (0:Int) ≤ lineDelta (lineText doc i) :=
      lineDelta_nonneg_of_not_close _ (hall i (le_refl i))
    rw [if_neg (by omega)]
    split <;> rfl
  | succ f ih =>
    intro i d hd hall
    rw [scanClose.eq_def, stepDepth_eq]
    have hlo : (0:Int) ≤ lineDelta (lineText doc i) :=
      lineDelta_nonneg_of_not_close _ (hall i (le_refl i))
    rw [if_neg (by omega)]
    split
    · rfl
    · show scanClose doc f (i + 1) (d + lineDelta (lineText doc i)) = none
      exact ih (i + 1) _ (by omega) (fun l hl => hall l (by omega))

/-- The delta sum is the number of opening matches minus the number of
closing matches. -/
theorem sumDelta_counts (doc : List String) (i : Nat) : ∀ k,
    sumDelta doc i k = (countOpen doc i k : Int) - (countClose doc i k : Int) := by
  intro k
  induction k with
  | zero =>
    show lineDelta (lineText doc i) = _
    unfold lineDelta countOpen countClose
    split_ifs <;> simp
  | succ k ih =>
    show sumDelta doc i k + lineDelta (lineText doc (i + (k + 1))) = _
    rw [ih]
    show _ = ((countOpen doc i k + if testStartRE (lineText doc (i + (k + 1))) then 1 else 0 : Nat) : Int) -
      ((countClose doc i k + if testEndRE (lineText doc (i + (k + 1))) then 1 else 0 : Nat) : Int)
    unfold lineDelta
    split_ifs <;> push_cast <;> ring

/-- C4: the forward scan (invoked by region mode at the selection's end line
with counter 1) visits lines in order, each visited line contributing its
independent open-test increment and close-test decrement; it returns exactly
the first visited line after which the counter equals 0, staying inside the
document. Consequently, over the visited lines the scan consumes exactly one
more closing marker than the opening markers it sees: counting the region's
own opening marker (represented by the initial counter value 1), N properly
nested opening markers are consumed by exactly N closing markers. -/
theorem C4_nesting_scan (doc : List String) (i fuel : Nat)
    (hi : i < doc.length) (hfuel : doc.length ≤ fuel + i + 1) :
    (∀ j, scanClose doc fuel i 1 = some j ↔
      ∃ k, j = i + k ∧ i + k < doc.length ∧ depthAfter doc i 1 k = 0 ∧
        ∀ m, m < k → depthAfter doc i 1 m ≠ 0) ∧
    (∀ j k, scanClose doc fuel i 1 = some j → j = i + k →
      countClose doc i k = countOpen doc i k + 1) := by
  constructor
  · exact scanClose_some_iff doc fuel i 1 one_pos hi hfuel
  · intro j k hs hk
    obtain ⟨k2, hk2, hlt, hdep, hmin⟩ :=
      (scanClose_some_iff doc fuel i 1 one_pos hi hfuel j).mp hs
    have hkk : k = k2 := by omega
    subst hkk
    have hc := sumDelta_counts doc i k
    unfold depthAfter at hdep
    omega

/-- C4, witness: in the five-line document with two nested opening markers,
the scan from line 1 stops at line 4, having consumed two closing markers
for one opening marker seen plus the initial counter. -/
theorem C4_nesting_scan_witness :
    countClose ["(", "(", "x", ")", ")"] 1 3 = countOpen ["(", "(", "x", ")", ")"] 1 3 + 1 :=
  (C4_nesting_scan ["(", "(", "x", ")", ")"] 1 5 (by decide) (by decide)).2 4 3
    (by decide) (by decide)

/-- C5: region mode either returns a span whose start line matches the
opening-marker pattern and whose end line matches the closing-marker
pattern, or returns no-span; a selection with no opening-marker line at or
above its start yields no-span; a selection with no closing-marker line at
or below its end (within the document) yields no-span; and on the three-line
document open-paren, one-plus-one-semicolon, close-paren with the selection
on the middle line, the returned span runs from the start of line 0 to the
end of line 2. -/
theorem C5_region_shape :
    (∀ (doc : List String) (sel : Range) (rng : Range), regionRange doc sel = some rng →
      testStartRE (lineText doc rng.start.line) = true ∧
      testEndRE (lineText doc rng.endPos.line) = true) ∧
    (∀ (doc : List String) (sel : Range),
      (∀ l, l < sel.start.line + 1 → testStartRE (lineText doc l) = false) →
      regionRange doc sel = none) ∧
    (∀ (doc : List String) (sel : Range),
      (∀ l, l < doc.length → sel.endPos.line ≤ l → testEndRE (lineText doc l) = false) →
      regionRange doc sel = none) ∧
    regionRange ["(", "1 + 1;", ")"] ⟨⟨1, 0⟩, ⟨1, 0⟩⟩ = some ⟨⟨0, 0⟩, ⟨2, 1⟩⟩ := by
  refine ⟨?_, ?_, ?_, by decide⟩
  · intro doc sel rng h
    unfold regionRange at h
    cases hs : scanOpen doc sel.start.line with
    | none => rw [hs] at h; exact absurd h (by simp)
    | some s =>
      rw [hs] at h
      cases he : scanClose doc doc.length sel.endPos.line 1 with
      | none => rw [he] at h; exact absurd h (by simp)
      | some e =>
        rw [he] at h
        obtain rfl : rng = ⟨⟨s, 0⟩, ⟨e, (lineText doc e).length⟩⟩ :=
          (Option.some_inj.mp h).symm
        exact ⟨scanOpen_some_matches doc sel.start.line s hs,
          scanClose_some_matches doc doc.length sel.endPos.line 1 e one_pos he⟩
  · intro doc sel hall
    unfold regionRange
    rw [scanOpen_none_of doc sel.start.line (fun l hl => hall l (by omega))]
  · intro doc sel hall
    unfold regionRange
    have hnone : scanClose doc doc.length sel.endPos.line 1 = none := by
      apply scanClose_none_of doc doc.length sel.endPos.line 1 one_pos
      intro l hl
      by_cases hlen : l < doc.length
      · exact hall l hlen hl
      · rw [lineText_of_ge doc l (by omega)]
        rfl
    cases hs : scanOpen doc sel.start.line with
    | none => rfl
    | some s => rw [hnone]

/-- C5, witness: a one-line document with no opening marker above the
selection yields no-span. -/
theorem C5_region_shape_witness :
    regionRange ["x"] ⟨⟨0, 0⟩, ⟨0, 0⟩⟩ = none :=
  C5_region_shape.2.1 ["x"] ⟨⟨0, 0⟩, ⟨0, 0⟩⟩ (by decide)

/-- Running any event sequence adds one to the shared counter per
invocation event, and the created invocations' generations are the
successive counter values in creation order. -/
theorem runEvents_spec : ∀ (evs : List Event) (st : SysState),
    (runEvents st evs).1.evaluateUID = st.evaluateUID + countInvoke evs ∧
    ((runEvents st evs).2.map Invocation.gen) =
      (List.range (countInvoke evs)).map (fun k => st.evaluateUID + k + 1) := by
  intro evs
  induction evs with
  | nil => intro st; simp [runEvents, countInvoke]
  | cons ev rest ih =>
    intro st
    cases ev with
    | invoke ed r =>
      obtain ⟨ih1, ih2⟩ := ih ((onStartEvaluate st ed r).1)
      have hcnt : countInvoke (Event.invoke ed r :: rest) = countInvoke rest + 1 := by
        simp [countInvoke, List.countP_cons]
      constructor
      · show (runEvents (onStartEvaluate st ed r).1 rest).1.evaluateUID = _
        rw [ih1, onStartEvaluate_evaluateUID, hcnt]
        omega
      · show ((onStartEvaluate st ed r).2.1 :: (runEvents (onStartEvaluate st ed r).1 rest).2).map
          Invocation.gen = _
        rw [List.map_cons, ih2, onStartEvaluate_evaluateUID, onStartEvaluate_inv, hcnt,
          List.range_succ_eq_map, List.map_cons, List.map_map]
        have hf : ((fun k => st.evaluateUID + k + 1) ∘ Nat.succ) =
            (fun k => st.evaluateUID + 1 + k + 1) := by
          funext k
          simp only [Function.comp]
          omega
        rw [hf]
    | response inv r =>
      obtain ⟨ih1, ih2⟩ := ih (handleResponse st inv r)
      have hcnt : countInvoke (Event.response inv r :: rest) = countInvoke rest := by
        simp [countInvoke, List.countP_cons]
      refine ⟨?_, ?_⟩
      · show (runEvents (handleResponse st inv r) rest).1.evaluateUID = _
        rw [ih1, handleResponse_evaluateUID, hcnt]
      · show ((runEvents (handleResponse st inv r) rest).2).map Invocation.gen = _
        rw [ih2, hcnt]
        simp only [handleResponse_evaluateUID]
    | timeout inv =>
      obtain ⟨ih1, ih2⟩ := ih (timerFire st inv)
      have hcnt : countInvoke (Event.timeout inv :: rest) = countInvoke rest := by
        simp [countInvoke, List.countP_cons]
      refine ⟨?_, ?_⟩
      · show (runEvents (timerFire st inv) rest).1.evaluateUID = _
        rw [ih1, timerFire_evaluateUID, hcnt]
      · show ((runEvents (timerFire st inv) rest).2).map Invocation.gen = _
        rw [ih2, hcnt]
        simp only [timerFire_evaluateUID]

/-- C10: the generation counter is a single process-wide integer,
pre-incremented exactly once per invocation and never decremented or reset
by any event: after any event sequence the counter equals its start value
plus the number of invocations, each created invocation's generation is the
counter value at its creation (start value plus its creation index plus
one), and the generations of the created invocations, across all editors,
are strictly increasing in creation order, hence pairwise distinct. -/
theorem C10_monotone_counter (st : SysState) (evs : List Event) :
    (runEvents st evs).1.evaluateUID = st.evaluateUID + countInvoke evs ∧
    ((runEvents st evs).2.map Invocation.gen) =
      (List.range (countInvoke evs)).map (fun k => st.evaluateUID + k + 1) ∧
    ((runEvents st evs).2.map Invocation.gen).Pairwise (fun a b => a < b) := by
  obtain ⟨h1, h2⟩ := runEvents_spec evs st
  refine ⟨h1, h2, ?_⟩
  rw [h2]
  exact (List.pairwise_lt_range _).map _ (fun a b hab => by omega)

/-- C1: for two invocations A then B on the same editor, A's generation
differs from the counter after B starts, so A's completion, whenever it
arrives (before or after B's), emits no setDecorations call; B's completion
with a well-formed (classified) result emits the full completion sequence in
either arrival order: only B's completion is rendered. -/
theorem C1_same_editor_last_wins (st0 : SysState) (ed : Nat) (rA rB : Range)
    (resA resB : EvaluateSelectionResult) (p : String × Bool)
    (hB : classifyResult resB = some p) :
    (onStartEvaluate st0 ed rA).2.1.gen ≠
      (onStartEvaluate ((onStartEvaluate st0 ed rA).1) ed rB).1.evaluateUID ∧
    handleResponseOps (onStartEvaluate ((onStartEvaluate st0 ed rA).1) ed rB).1
      (onStartEvaluate st0 ed rA).2.1 resA = [] ∧
    handleResponseOps (onStartEvaluate ((onStartEvaluate st0 ed rA).1) ed rB).1
      (onStartEvaluate ((onStartEvaluate st0 ed rA).1) ed rB).2.1 resB =
      onEndEvaluateOps ed rB p.1 p.2 ∧
    handleResponseOps
      (handleResponse (onStartEvaluate ((onStartEvaluate st0 ed rA).1) ed rB).1
        (onStartEvaluate st0 ed rA).2.1 resA)
      (onStartEvaluate ((onStartEvaluate st0 ed rA).1) ed rB).2.1 resB =
      onEndEvaluateOps ed rB p.1 p.2 ∧
    handleResponseOps
      (handleResponse (onStartEvaluate ((onStartEvaluate st0 ed rA).1) ed rB).1
        (onStartEvaluate ((onStartEvaluate st0 ed rA).1) ed rB).2.1 resB)
      (onStartEvaluate st0 ed rA).2.1 resA = [] := by
  obtain ⟨t, b⟩ := p
  have hgenA : (onStartEvaluate st0 ed rA).2.1 = ⟨ed, st0.evaluateUID + 1, rA⟩ :=
    onStartEvaluate_inv st0 ed rA
  have huidB : (onStartEvaluate ((onStartEvaluate st0 ed rA).1) ed rB).1.evaluateUID =
      st0.evaluateUID + 2 := rfl
  have hgenB : (onStartEvaluate ((onStartEvaluate st0 ed rA).1) ed rB).2.1 =
      ⟨ed, st0.evaluateUID + 2, rB⟩ := rfl
  have hstaleA : handleResponseOps (onStartEvaluate ((onStartEvaluate st0 ed rA).1) ed rB).1
      (onStartEvaluate st0 ed rA).2.1 resA = [] := by
    apply handleResponseOps_stale
    rw [huidB, hgenA]
    simp
  have hfreshB : handleResponseOps (onStartEvaluate ((onStartEvaluate st0 ed rA).1) ed rB).1
      (onStartEvaluate ((onStartEvaluate st0 ed rA).1) ed rB).2.1 resB =
      onEndEvaluateOps ed rB t b := by
    rw [handleResponseOps_fresh _ _ _ t b hB (by rw [huidB, hgenB])]
    rw [hgenB]
  refine ⟨?_, hstaleA, hfreshB, ?_, ?_⟩
  · rw [huidB, hgenA]
    simp
  · have hsame : handleResponse (onStartEvaluate ((onStartEvaluate st0 ed rA).1) ed rB).1
        (onStartEvaluate st0 ed rA).2.1 resA =
        (onStartEvaluate ((onStartEvaluate st0 ed rA).1) ed rB).1 := by
      unfold handleResponse
      rw [hstaleA]
      rfl
    rw [hsame]
    exact hfreshB
  · apply handleResponseOps_stale
    rw [handleResponse_evaluateUID, huidB, hgenA]
    simp

/-- C1, witness: with two concrete invocations on editor 0 from the initial
state, the first invocation's completion emits nothing and the second's
renders the success sequence. -/
theorem C1_same_editor_last_wins_witness :
    handleResponseOps (onStartEvaluate ((onStartEvaluate initState 0 demoRange).1) 0 demoRange).1
      (onStartEvaluate initState 0 demoRange).2.1 ⟨none, some "1", none⟩ = [] ∧
    handleResponseOps (onStartEvaluate ((onStartEvaluate initState 0 demoRange).1) 0 demoRange).1
      (onStartEvaluate ((onStartEvaluate initState 0 demoRange).1) 0 demoRange).2.1
      ⟨none, some "2", none⟩ = onEndEvaluateOps 0 demoRange "2" false := by
  have h := C1_same_editor_last_wins initState 0 demoRange demoRange
    ⟨none, some "1", none⟩ ⟨none, some "2", none⟩ ("2", false) rfl
  exact ⟨h.2.1, h.2.2.1⟩

end SCEval
